import Mathlib

/-!
Verification development for the Rich-Land inventory system
(`richland_inventory` Django application).

The definitions below are a shallow embedding of the stock-movement core:
the data model of `inventory/models.py` and the operations of
`inventory/views.py` / `inventory/forms.py` that create or mutate ledger
state (POS checkout, refund, purchase-order receive, manual stock out,
product creation, balance derivation).

Modelling conventions:
* Monetary `Decimal` values (two decimal places) are represented as `Int`
  amounts in centavos; every monetary operation in the modelled code is
  addition, subtraction, multiplication by an integer quantity, or
  comparison, all of which are exact under this scaling.
* Django model rows become entries of Lean lists inside one `DB` record;
  primary keys are `Nat`.
* `transaction.atomic()` blocks are modelled by pure functions that return
  the *original* database when the operation aborts, and the fully updated
  database when it commits: no intermediate state is representable.
* Request-level plumbing (HTTP, JSON parsing, authentication, timestamps,
  free-text notes, Django messages' text) is dropped; outcomes that the
  claims talk about (error kinds, success messages) are kept as explicit
  values.
-/

namespace Richland

/-- Transaction direction, `StockTransaction.TransactionType` in
`inventory/models.py` (values `IN` / `OUT`). -/
inductive TxType
  | IN
  | OUT
  deriving DecidableEq, Repr

/-- Transaction reason, `StockTransaction.TransactionReason` in
`inventory/models.py` (`SALE`, `PO`, `DAMAGE`, `INTERNAL`, `CORRECTION`,
`RETURN`, `INITIAL`, `OTHER`). -/
inductive TxReason
  | SALE
  | PO
  | DAMAGE
  | INTERNAL
  | CORRECTION
  | RETURN
  | INITIAL
  | OTHER
  deriving DecidableEq, Repr

/-- Payment method of a POS sale, `POSSale.PaymentMethod`
(`CASH`, `CREDIT`, `CARD`). -/
inductive PayMethod
  | CASH
  | CREDIT
  | CARD
  deriving DecidableEq, Repr

/-- Purchase-order status, `PurchaseOrder.STATUS_CHOICES`.  In the source
the "arrived, ready to receive" state is stored under the label
`COMPLETED`; `RECEIVED` means goods counted into stock. -/
inductive POStatus
  | PENDING
  | COMPLETED
  | RECEIVED
  | CANCELED
  deriving DecidableEq, Repr

/-- A catalogue product (model `Product`).  Fields not read or written by
any modelled operation (name, sku, slug, category, status, reorder level,
timestamps) are omitted.  `quantity` is kept as `Int`: the Python code
manipulates it with unchecked `+=` / `-=`. -/
structure Product where
  pid : Nat
  price : Int
  quantity : Int
  deriving DecidableEq, Repr

/-- A ledger row (model `StockTransaction`).  `posSale` is the optional
foreign key to the POS sale that produced the row; `sellingPrice` is the
nullable unit-price snapshot. -/
structure StockTransaction where
  product : Nat
  posSale : Option Nat
  txType : TxType
  txReason : TxReason
  quantity : Int
  sellingPrice : Option Int
  deriving DecidableEq, Repr

/-- A POS receipt header (model `POSSale`).  The unique `receipt_id`
token is modelled by the numeric primary key `saleId`. -/
structure POSSale where
  saleId : Nat
  customer : Option Nat
  paymentMethod : PayMethod
  totalAmount : Int
  amountPaid : Int
  changeGiven : Int
  deriving DecidableEq, Repr

/-- A credit customer (model `Customer`); only the credit ceiling is
relevant to the modelled operations. -/
structure Customer where
  cid : Nat
  creditLimit : Int
  deriving DecidableEq, Repr

/-- A payment row (model `CustomerPayment`). -/
structure CustomerPayment where
  customer : Nat
  amount : Int
  deriving DecidableEq, Repr

/-- A purchase-order line item (model `PurchaseOrderItem`). -/
structure POItem where
  product : Nat
  quantity : Int
  price : Int
  deriving DecidableEq, Repr

/-- A purchase order (model `PurchaseOrder`) with its line items inlined. -/
structure PurchaseOrder where
  poPk : Nat
  status : POStatus
  items : List POItem
  deriving DecidableEq, Repr

/-- The whole relational store.  `nextSaleId` models the allocation of a
fresh primary key / receipt identifier for each new `POSSale`. -/
structure DB where
  products : List Product
  transactions : List StockTransaction
  sales : List POSSale
  customers : List Customer
  payments : List CustomerPayment
  orders : List PurchaseOrder
  nextSaleId : Nat
  deriving DecidableEq, Repr

/-- Lookup of a product row by primary key (`Product.objects.get(pk=...)`). -/
def findProduct (db : DB) (pid : Nat) : Option Product :=
  db.products.find? (fun p => p.pid == pid)

/-- Lookup of a customer row by primary key (`Customer.objects.get(pk=...)`). -/
def findCustomer (db : DB) (cid : Nat) : Option Customer :=
  db.customers.find? (fun c => c.cid == cid)

/-- Lookup of a purchase order by primary key (`get_object_or_404(PurchaseOrder, pk=...)`). -/
def findOrder (db : DB) (pk : Nat) : Option PurchaseOrder :=
  db.orders.find? (fun o => o.poPk == pk)

/-- Pointwise update of the product rows matching a primary key
(the ORM's fetch-modify-save pattern). -/
def updateProduct (ps : List Product) (pid : Nat) (f : Product → Product) : List Product :=
  ps.map (fun p => if p.pid == pid then f p else p)

/-- Pointwise update of the purchase-order rows matching a primary key. -/
def updateOrder (os : List PurchaseOrder) (pk : Nat) (f : PurchaseOrder → PurchaseOrder) :
    List PurchaseOrder :=
  os.map (fun o => if o.poPk == pk then f o else o)

/-- Customer.get_balance (models.py lines 37-49): sum of `total_amount`
over the customer's CREDIT sales minus the sum of the customer's payment
amounts, recomputed from the two record sets on each call. -/
def get_balance (db : DB) (cid : Nat) : Int :=
  ((db.sales.filter
      (fun s => s.customer == some cid && s.paymentMethod == PayMethod.CREDIT)).map
        (fun s => s.totalAmount)).sum
    - ((db.payments.filter (fun p => p.customer == cid)).map (fun p => p.amount)).sum

/-! ### The common record-a-movement shape

Every mutating core operation pairs one appended `StockTransaction` row
with one in-place change of the matching product's `quantity` inside a
single atomic unit.  `recordMovement db pid d t` captures that unit:
`d` is the signed quantity change applied to the product (`Int`
subtraction is definitionally addition of the negation, so the `-=` call
sites below are written through this helper as well). -/

/-- Append one ledger row and apply its signed quantity delta to the
matching product rows, as one atomic unit. -/
def recordMovement (db : DB) (pid : Nat) (d : Int) (t : StockTransaction) : DB :=
  { db with
    products := updateProduct db.products pid (fun p => { p with quantity := p.quantity + d })
    transactions := db.transactions ++ [t] }

/-! ### POS checkout (`pos_checkout`, views.py lines 1273-1388) -/

/-- One entry of the JSON cart.  The handler reads only `item.get('id')`
and `item.get('qty')`; any client-supplied price field travels with the
request but is never consulted. -/
structure CartLine where
  id : Nat
  qty : Int
  clientPrice : Option Int
  deriving DecidableEq, Repr

/-- The parsed body of a checkout POST: cart lines, optional customer id,
payment method, and the tendered amount (`amount_paid`, 0 when absent). -/
structure CheckoutRequest where
  items : List CartLine
  customerId : Option Nat
  paymentMethod : PayMethod
  amountPaid : Int
  deriving DecidableEq, Repr

/-- The error outcomes of `pos_checkout` (empty-cart / not-found /
`ValueError` / credit-validation responses, in source order). -/
inductive CheckoutError
  | EmptyCart
  | ProductNotFound
  | InsufficientStock (pid : Nat)
  | CustomerRequired
  | CreditLimitExceeded
  | InsufficientPayment
  deriving DecidableEq, Repr

/-- Projection of a cart line to the two fields the handler reads. -/
def stripLine (l : CartLine) : Nat × Int := (l.id, l.qty)

/-- The pre-validation loop (views.py lines 1301-1308): resolve every
product, check the requested quantity against the *current, unlocked*
quantity, and accumulate the total at current catalogue prices.  Raises
on the first failing line. -/
def validateItems (db : DB) : List (Nat × Int) → Except CheckoutError Int
  | [] => Except.ok 0
  | (pid, qty) :: rest =>
    match findProduct db pid with
    | none => Except.error CheckoutError.ProductNotFound
    | some p =>
      if p.quantity < qty then Except.error (CheckoutError.InsufficientStock pid)
      else
        match validateItems db rest with
        | Except.error e => Except.error e
        | Except.ok t => Except.ok (p.price * qty + t)

/-- Everything `pos_checkout` does before opening the atomic block
(views.py lines 1277-1325): empty-cart check, silent customer
resolution, the pre-validation loop, then credit validation (zero limit
disables the check; on credit the immediate payment is forced to 0) or
cash validation.  On success it yields the resolved customer, the
effective `amount_paid` and the computed total. -/
def checkoutValidate (db : DB) (req : CheckoutRequest) :
    Except CheckoutError (Option Customer × Int × Int) :=
  if req.items.isEmpty then Except.error CheckoutError.EmptyCart
  else
    let customer := req.customerId.bind (findCustomer db)
    match validateItems db (req.items.map stripLine) with
    | Except.error e => Except.error e
    | Except.ok total =>
      match req.paymentMethod with
      | PayMethod.CREDIT =>
        match customer with
        | none => Except.error CheckoutError.CustomerRequired
        | some cust =>
          if cust.creditLimit > 0 ∧ get_balance db cust.cid + total > cust.creditLimit then
            Except.error CheckoutError.CreditLimitExceeded
          else Except.ok (some cust, 0, total)
      | PayMethod.CASH =>
        if req.amountPaid < total then Except.error CheckoutError.InsufficientPayment
        else Except.ok (customer, req.amountPaid, total)
      | PayMethod.CARD => Except.ok (customer, req.amountPaid, total)

/-- The OUT/SALE ledger row written for one cart line (views.py lines
1354-1363). -/
def mkSaleTx (saleId pid : Nat) (qty : Int) (price : Option Int) : StockTransaction :=
  { product := pid
    posSale := some saleId
    txType := TxType.OUT
    txReason := TxReason.SALE
    quantity := qty
    sellingPrice := price }

/-- The item-processing loop inside the atomic block (views.py lines
1342-1363): for each line, re-fetch the product row under
`select_for_update`, decrement its quantity, and create the OUT/SALE row
priced at the re-fetched product's current price.  No quantity
re-validation happens here.  (A mid-loop `Product.DoesNotExist` would
abort the whole atomic block, but cannot occur: every modelled caller
runs the loop only for products it has just resolved, and no modelled
operation deletes product rows.) -/
def commitLines (saleId : Nat) : List (Nat × Int) → DB → DB
  | [], db => db
  | (pid, qty) :: rest, db =>
    let price := (findProduct db pid).map (fun p => p.price)
    commitLines saleId rest (recordMovement db pid (-qty) (mkSaleTx saleId pid qty price))

/-- Creation of the sale header plus the item loop — the content of the
`transaction.atomic()` block (views.py lines 1327-1363).  `change_given`
is `amount_paid - total` for cash and 0 otherwise. -/
def finalizeSale (db : DB) (customer : Option Customer) (method : PayMethod)
    (amountPaid total : Int) (lines : List (Nat × Int)) : POSSale × DB :=
  let sale : POSSale :=
    { saleId := db.nextSaleId
      customer := customer.map (fun c => c.cid)
      paymentMethod := method
      totalAmount := total
      amountPaid := amountPaid
      changeGiven := if method = PayMethod.CASH then amountPaid - total else 0 }
  let db1 : DB := { db with sales := db.sales ++ [sale], nextSaleId := db.nextSaleId + 1 }
  (sale, commitLines sale.saleId lines db1)

/-- The request handler `pos_checkout`: validation, then the atomic
commit.  Any validation failure leaves the store untouched; an exception
inside the atomic block would roll it back to the same untouched store. -/
def pos_checkout (db : DB) (req : CheckoutRequest) : Except CheckoutError POSSale × DB :=
  match checkoutValidate db req with
  | Except.error e => (Except.error e, db)
  | Except.ok (customer, amountPaid, total) =>
    let r := finalizeSale db customer req.paymentMethod amountPaid total (req.items.map stripLine)
    (Except.ok r.1, r.2)

/-! ### Refund flow (`product_refund`, views.py lines 1126-1184) -/

/-- Error outcomes of the refund handler: missing product (404), form
rejection (`RefundForm` restricts `pos_sale` to receipts containing an
OUT/SALE row for the product and validates `quantity ≥ 0`), the
"product not in receipt" message, and the over-refund message. -/
inductive RefundError
  | ProductNotFound
  | FormInvalid
  | NotInReceipt
  | OverRefund
  deriving DecidableEq, Repr

/-- Quantity of the product sold on the given sale: the sum over the
sale's OUT/SALE rows for that product (views.py lines 1140-1146). -/
def totalSold (txs : List StockTransaction) (saleId pid : Nat) : Int :=
  ((txs.filter (fun t =>
      t.posSale == some saleId && t.product == pid &&
      t.txType == TxType.OUT && t.txReason == TxReason.SALE)).map
        (fun t => t.quantity)).sum

/-- Quantity already returned against the given sale: the sum over the
sale's IN/RETURN rows for that product (views.py lines 1153-1159). -/
def totalReturned (txs : List StockTransaction) (saleId pid : Nat) : Int :=
  ((txs.filter (fun t =>
      t.posSale == some saleId && t.product == pid &&
      t.txType == TxType.IN && t.txReason == TxReason.RETURN)).map
        (fun t => t.quantity)).sum

/-- The `RefundForm` queryset test: the chosen receipt must own at least
one OUT/SALE row for the product (forms.py lines 147-152). -/
def saleHasProduct (txs : List StockTransaction) (saleId pid : Nat) : Bool :=
  txs.any (fun t =>
    t.posSale == some saleId && t.product == pid &&
    t.txType == TxType.OUT && t.txReason == TxReason.SALE)

/-- The refund handler `product_refund`: resolve the product, run form
validation, re-check that the product occurs in the receipt, enforce the
over-refund bound, then atomically append the IN/RETURN row (priced at
the product's current price) and increment the product quantity. -/
def product_refund (db : DB) (pid saleId : Nat) (qty : Int) :
    Except RefundError Unit × DB :=
  match findProduct db pid with
  | none => (Except.error RefundError.ProductNotFound, db)
  | some product =>
    if qty < 0 then (Except.error RefundError.FormInvalid, db)
    else if ¬ saleHasProduct db.transactions saleId pid then
      (Except.error RefundError.FormInvalid, db)
    else
      let sold := totalSold db.transactions saleId pid
      if sold = 0 then (Except.error RefundError.NotInReceipt, db)
      else if sold < totalReturned db.transactions saleId pid + qty then
        (Except.error RefundError.OverRefund, db)
      else
        (Except.ok (),
          recordMovement db pid qty
            { product := pid
              posSale := some saleId
              txType := TxType.IN
              txReason := TxReason.RETURN
              quantity := qty
              sellingPrice := some product.price })

/-- Fold of a sequence of refund requests for one product against one
sale, threading the store (used to state the cumulative refund bound). -/
def refundSeq (pid saleId : Nat) : List Int → DB → DB
  | [], db => db
  | q :: qs, db => refundSeq pid saleId qs (product_refund db pid saleId q).2

/-! ### Purchase-order receiving (`PurchaseOrder.complete_order`,
models.py lines 311-333, and `receive_purchase_order`, views.py lines
1747-1754) -/

/-- The IN/PURCHASE_ORDER ledger row written for one order line
(models.py lines 322-329); `complete_order` sets no price snapshot. -/
def mkPoTx (pid : Nat) (qty : Int) : StockTransaction :=
  { product := pid
    posSale := none
    txType := TxType.IN
    txReason := TxReason.PO
    quantity := qty
    sellingPrice := none }

/-- The item loop of `complete_order`: one IN/PURCHASE_ORDER row plus a
quantity increment per line item. -/
def receiveItems : List POItem → DB → DB
  | [], db => db
  | it :: rest, db =>
    receiveItems rest (recordMovement db it.product it.quantity (mkPoTx it.product it.quantity))

/-- Model method `PurchaseOrder.complete_order`: a no-op when the order
is already RECEIVED, otherwise atomically mark it RECEIVED and stock in
every line item. -/
def complete_order (db : DB) (pk : Nat) : DB :=
  match findOrder db pk with
  | none => db
  | some po =>
    if po.status = POStatus.RECEIVED then db
    else
      receiveItems po.items
        { db with
          orders := updateOrder db.orders pk (fun o => { o with status := POStatus.RECEIVED }) }

/-- Django messages surfaced by the receive view (only a success message
exists in the source; no error branch does). -/
inductive Msg
  | successMsg
  deriving DecidableEq, Repr

/-- Observable response of the receive view: a redirect to the order
list carrying the flashed messages, or a 404 for an unknown order. -/
inductive RecvResult
  | redirect (msgs : List Msg)
  | notFound
  deriving DecidableEq, Repr

/-- The view `receive_purchase_order`: on a POST against an order in the
arrived state (stored label `COMPLETED`) it calls `complete_order` and
flashes a success message; in every other case it redirects back with no
message and no state change. -/
def receive_purchase_order (db : DB) (pk : Nat) (isPost : Bool) : RecvResult × DB :=
  match findOrder db pk with
  | none => (RecvResult.notFound, db)
  | some po =>
    if isPost ∧ po.status = POStatus.COMPLETED then
      (RecvResult.redirect [Msg.successMsg], complete_order db pk)
    else (RecvResult.redirect [], db)

/-! ### Manual stock out (`ProductDetailView.post`, views.py lines
1100-1124, with `StockOutForm`) -/

/-- Error outcomes of the manual stock-out POST. -/
inductive StockOutError
  | ProductNotFound
  | FormInvalid
  | InsufficientStock
  deriving DecidableEq, Repr

/-- The reasons `StockOutForm` offers (forms.py lines 116-126 exclude
PURCHASE_ORDER, RETURN, INITIAL and SALE). -/
def stockOutAllowedReason : TxReason → Bool
  | TxReason.DAMAGE => true
  | TxReason.INTERNAL => true
  | TxReason.CORRECTION => true
  | TxReason.OTHER => true
  | _ => false

/-- The manual stock-out POST: lock the product, validate the form
(allowed reason, quantity ≥ 0), reject when the requested quantity
exceeds the available quantity, otherwise atomically decrement and
append the OUT row.  The `selling_price` assignment mirrors line 1119
even though the SALE reason is excluded by the form. -/
def product_stock_out (db : DB) (pid : Nat) (reason : TxReason) (qty : Int) :
    Except StockOutError Unit × DB :=
  match findProduct db pid with
  | none => (Except.error StockOutError.ProductNotFound, db)
  | some product =>
    if ¬ stockOutAllowedReason reason ∨ qty < 0 then
      (Except.error StockOutError.FormInvalid, db)
    else if product.quantity < qty then (Except.error StockOutError.InsufficientStock, db)
    else
      (Except.ok (),
        recordMovement db pid (-qty)
          { product := pid
            posSale := none
            txType := TxType.OUT
            txReason := reason
            quantity := qty
            sellingPrice := if reason == TxReason.SALE then some product.price else none })

/-! ### Product creation (`ProductCreateForm`, forms.py lines 60-72, via
`ProductCreateView`) -/

/-- Product creation: the form carries `quantity` as a direct model
field (widget minimum 0, sku/name unique), and the view saves the new
row as-is.  No `StockTransaction` is created anywhere on this path. -/
def create_product (db : DB) (pid : Nat) (price qty0 : Int) : Except Unit Unit × DB :=
  if db.products.any (fun p => p.pid == pid) ∨ price < 0 ∨ qty0 < 0 then
    (Except.error (), db)
  else
    (Except.ok (),
      { db with products := db.products ++ [{ pid := pid, price := price, quantity := qty0 }] })

/-! ### The core operations as a transition system -/

/-- One invocation of a core operation. -/
inductive Op
  | createProduct (pid : Nat) (price qty0 : Int)
  | checkout (req : CheckoutRequest)
  | refund (pid saleId : Nat) (qty : Int)
  | receiveOrder (pk : Nat) (isPost : Bool)
  | stockOut (pid : Nat) (reason : TxReason) (qty : Int)
  deriving DecidableEq, Repr

/-- The state reached after one operation (each handler returns the
unchanged store on failure). -/
def applyOp (db : DB) : Op → DB
  | Op.createProduct pid price q0 => (create_product db pid price q0).2
  | Op.checkout req => (pos_checkout db req).2
  | Op.refund pid sid q => (product_refund db pid sid q).2
  | Op.receiveOrder pk post => (receive_purchase_order db pk post).2
  | Op.stockOut pid r q => (product_stock_out db pid r q).2

/-- The state reached after a sequence of operations. -/
def applyOps (db : DB) : List Op → DB
  | [] => db
  | op :: ops => applyOps (applyOp db op) ops

/-! ### The quantity invariant -/

/-- Signed contribution of one ledger row to one product's balance: IN
rows add their quantity, OUT rows subtract it, rows of other products
contribute 0. -/
def signedFor (pid : Nat) (t : StockTransaction) : Int :=
  if t.product == pid then
    match t.txType with
    | TxType.IN => t.quantity
    | TxType.OUT => -t.quantity
  else 0

/-- Signed sum of all ledger rows for one product. -/
def txSum (txs : List StockTransaction) (pid : Nat) : Int :=
  (txs.map (signedFor pid)).sum

/-- The spec's quantity invariant: every stored product quantity equals
the signed sum of that product's ledger rows. -/
def QuantityInv (db : DB) : Prop :=
  ∀ p ∈ db.products, p.quantity = txSum db.transactions p.pid

instance (db : DB) : Decidable (QuantityInv db) :=
  List.decidableBAll _ db.products

/-- Referential well-formedness maintained by the relational store:
distinct product primary keys, and the foreign keys of ledger rows and
order line items resolve to existing products. -/
def WF (db : DB) : Prop :=
  (db.products.map (fun p => p.pid)).Nodup ∧
  (∀ t ∈ db.transactions, t.product ∈ db.products.map (fun p => p.pid)) ∧
  (∀ o ∈ db.orders, ∀ it ∈ o.items, it.product ∈ db.products.map (fun p => p.pid))

instance (db : DB) : Decidable (WF db) := by
  unfold WF
  exact instDecidableAnd

/-! ### Interleaving model of concurrent checkouts

`pos_checkout` runs in two phases.  The pre-validation loop (views.py
lines 1301-1308) executes *before* `transaction.atomic()` is entered and
reads product rows with a plain `Product.objects.get` — no
`select_for_update`, so it sees the currently committed quantities
without holding any lock.  The row lock is taken only inside the atomic
block (line 1347), where the quantity is decremented with no
re-validation.  The model below interleaves these two phases of several
clients: a `validate` step reads the current store, a `commit` step
applies the whole atomic block at once (the row lock serializes commits,
so modelling the block as one atomic step only removes interleavings). -/

/-- Progress of one concurrent checkout client. -/
inductive CPhase
  | pending
  | validated (customer : Option Customer) (amountPaid total : Int)
  | committed (saleId : Nat)
  | failed (e : CheckoutError)
  deriving DecidableEq, Repr

/-- One concurrent checkout client: its request and its progress. -/
structure CClient where
  req : CheckoutRequest
  phase : CPhase
  deriving DecidableEq, Repr

/-- A configuration of the concurrent system: the shared store plus the
client pool. -/
structure CConfig where
  db : DB
  clients : List CClient
  deriving DecidableEq, Repr

/-- One scheduler step: some client either runs its unlocked
pre-validation against the current store, or commits its already
validated cart atomically. -/
inductive CStep : CConfig → CConfig → Prop
  | validateOk (cfg : CConfig) (i : Nat) (cl : CClient)
      (customer : Option Customer) (amountPaid total : Int)
      (hget : cfg.clients[i]? = some cl)
      (hph : cl.phase = CPhase.pending)
      (hv : checkoutValidate cfg.db cl.req = Except.ok (customer, amountPaid, total)) :
      CStep cfg
        { cfg with
          clients := cfg.clients.set i
            { cl with phase := CPhase.validated customer amountPaid total } }
  | validateFail (cfg : CConfig) (i : Nat) (cl : CClient) (e : CheckoutError)
      (hget : cfg.clients[i]? = some cl)
      (hph : cl.phase = CPhase.pending)
      (hv : checkoutValidate cfg.db cl.req = Except.error e) :
      CStep cfg
        { cfg with clients := cfg.clients.set i { cl with phase := CPhase.failed e } }
  | commitStep (cfg : CConfig) (i : Nat) (cl : CClient)
      (customer : Option Customer) (amountPaid total : Int)
      (hget : cfg.clients[i]? = some cl)
      (hph : cl.phase = CPhase.validated customer amountPaid total) :
      CStep cfg
        { db := (finalizeSale cfg.db customer cl.req.paymentMethod amountPaid total
            (cl.req.items.map stripLine)).2
          clients := cfg.clients.set i { cl with phase := CPhase.committed cfg.db.nextSaleId } }

/-- Sum of the OUT/SALE quantities recorded for one product (the
accepted sale quantities of the claims about overselling). -/
def outSaleSum (txs : List StockTransaction) (pid : Nat) : Int :=
  ((txs.filter (fun t =>
      t.product == pid && t.txType == TxType.OUT && t.txReason == TxReason.SALE)).map
        (fun t => t.quantity)).sum

/-- Whether a client has committed its checkout. -/
def CClient.isCommitted (cl : CClient) : Bool :=
  match cl.phase with
  | CPhase.committed _ => true
  | _ => false

/-! ### Concrete fixtures used by witnesses and counterexamples -/

/-- A store holding one product (pid 1, price 100, quantity 1) and
nothing else. -/
def oneItemDB : DB :=
  { products := [{ pid := 1, price := 100, quantity := 1 }]
    transactions := []
    sales := []
    customers := []
    payments := []
    orders := []
    nextSaleId := 1 }

/-- A cash request for one unit of product 1 with exact payment. -/
def oneItemReq : CheckoutRequest :=
  { items := [{ id := 1, qty := 1, clientPrice := none }]
    customerId := none
    paymentMethod := PayMethod.CASH
    amountPaid := 100 }

/-- Two clients racing to check out the single unit of `oneItemDB`. -/
def raceStart : CConfig :=
  { db := oneItemDB
    clients :=
      [{ req := oneItemReq, phase := CPhase.pending },
       { req := oneItemReq, phase := CPhase.pending }] }

/-- Total quantity a list of cart lines requests for one product. -/
def linesSum (lines : List (Nat × Int)) (pid : Nat) : Int :=
  ((lines.filter (fun l => l.1 == pid)).map (fun l => l.2)).sum

/-- Total quantity a list of purchase-order items delivers for one product. -/
def itemsSum (items : List POItem) (pid : Nat) : Int :=
  ((items.filter (fun it => it.product == pid)).map (fun it => it.quantity)).sum

/-- An empty store. -/
def emptyDB : DB :=
  { products := []
    transactions := []
    sales := []
    customers := []
    payments := []
    orders := []
    nextSaleId := 1 }

/-- A store whose single product is backed by a matching INITIAL ledger
row, so the quantity invariant holds. -/
def ledgeredDB : DB :=
  { products := [{ pid := 1, price := 100, quantity := 1 }]
    transactions :=
      [{ product := 1
         posSale := none
         txType := TxType.IN
         txReason := TxReason.INITIAL
         quantity := 1
         sellingPrice := none }]
    sales := []
    customers := []
    payments := []
    orders := []
    nextSaleId := 1 }

/-- A store with one product and a customer whose credit limit is zero. -/
def zeroLimitDB : DB :=
  { products := [{ pid := 1, price := 100, quantity := 5 }]
    transactions := []
    sales := []
    customers := [{ cid := 1, creditLimit := 0 }]
    payments := []
    orders := []
    nextSaleId := 1 }

/-- A credit request of one unit of product 1 for customer 1. -/
def creditReq : CheckoutRequest :=
  { items := [{ id := 1, qty := 1, clientPrice := none }]
    customerId := some 1
    paymentMethod := PayMethod.CREDIT
    amountPaid := 0 }

/-- A store with one product and a customer with a positive credit limit
below the price of one unit. -/
def limitDB : DB :=
  { products := [{ pid := 1, price := 100, quantity := 5 }]
    transactions := []
    sales := []
    customers := [{ cid := 1, creditLimit := 60 }]
    payments := []
    orders := []
    nextSaleId := 1 }

/-- A store with an arrived purchase order for three units of product 1. -/
def arrivedPoDB : DB :=
  { products := [{ pid := 1, price := 100, quantity := 0 }]
    transactions := []
    sales := []
    customers := []
    payments := []
    orders := [{ poPk := 1, status := POStatus.COMPLETED,
                 items := [{ product := 1, quantity := 3, price := 50 }] }]
    nextSaleId := 1 }

/-- A store with a still-pending purchase order for three units of
product 1. -/
def pendingPoDB : DB :=
  { products := [{ pid := 1, price := 100, quantity := 0 }]
    transactions := []
    sales := []
    customers := []
    payments := []
    orders := [{ poPk := 1, status := POStatus.PENDING,
                 items := [{ product := 1, quantity := 3, price := 50 }] }]
    nextSaleId := 1 }

/-- A store holding a past sale (receipt 1) of three units of product 1. -/
def soldDB : DB :=
  { products := [{ pid := 1, price := 100, quantity := 7 }]
    transactions :=
      [{ product := 1
         posSale := some 1
         txType := TxType.OUT
         txReason := TxReason.SALE
         quantity := 3
         sellingPrice := some 100 }]
    sales :=
      [{ saleId := 1
         customer := none
         paymentMethod := PayMethod.CASH
         totalAmount := 300
         amountPaid := 300
         changeGiven := 0 }]
    customers := []
    payments := []
    orders := []
    nextSaleId := 2 }

/-- A store with one product and a customer with ample credit. -/
def ampleCreditDB : DB :=
  { products := [{ pid := 1, price := 100, quantity := 5 }]
    transactions := []
    sales := []
    customers := [{ cid := 1, creditLimit := 100000 }]
    payments := []
    orders := []
    nextSaleId := 1 }

/-- A cash request for one unit of product 1 tendering less than the
total. -/
def cashShortReq : CheckoutRequest :=
  { items := [{ id := 1, qty := 1, clientPrice := none }]
    customerId := none
    paymentMethod := PayMethod.CASH
    amountPaid := 50 }

/-- The request of `oneItemReq` with a tampered client-side price field. -/
def tamperedReq : CheckoutRequest :=
  { items := [{ id := 1, qty := 1, clientPrice := some 1 }]
    customerId := none
    paymentMethod := PayMethod.CASH
    amountPaid := 100 }

/-- Restriction on an operation: if it is a product creation, the
created product starts with quantity 0. -/
def createsZeroStock : Op → Prop
  | Op.createProduct _ _ q0 => q0 = 0
  | _ => True

instance (op : Op) : Decidable (createsZeroStock op) := by
  cases op <;> simp only [createsZeroStock] <;> infer_instance

deriving instance DecidableEq for Except

/-- The race after client 0 validated against the untouched store. -/
def raceMid1 : CConfig :=
  { db := oneItemDB
    clients :=
      [{ req := oneItemReq, phase := CPhase.validated none 100 100 },
       { req := oneItemReq, phase := CPhase.pending }] }

/-- The race after both clients validated against the untouched store. -/
def raceMid2 : CConfig :=
  { db := oneItemDB
    clients :=
      [{ req := oneItemReq, phase := CPhase.validated none 100 100 },
       { req := oneItemReq, phase := CPhase.validated none 100 100 }] }

/-- The race after client 0 committed; client 1 still holds its stale
validation. -/
def raceMid3 : CConfig :=
  { db := (finalizeSale oneItemDB none PayMethod.CASH 100 100 [(1, 1)]).2
    clients :=
      [{ req := oneItemReq, phase := CPhase.committed 1 },
       { req := oneItemReq, phase := CPhase.validated none 100 100 }] }

/-- The race after both clients committed: two accepted one-unit sales
against a single unit of stock, and the stored quantity is negative. -/
def raceFinal : CConfig :=
  { db :=
      { products := [{ pid := 1, price := 100, quantity := -1 }]
        transactions := [mkSaleTx 1 1 1 (some 100), mkSaleTx 2 1 1 (some 100)]
        sales :=
          [{ saleId := 1
             customer := none
             paymentMethod := PayMethod.CASH
             totalAmount := 100
             amountPaid := 100
             changeGiven := 0 },
           { saleId := 2
             customer := none
             paymentMethod := PayMethod.CASH
             totalAmount := 100
             amountPaid := 100
             changeGiven := 0 }]
        customers := []
        payments := []
        orders := []
        nextSaleId := 3 }
    clients :=
      [{ req := oneItemReq, phase := CPhase.committed 1 },
       { req := oneItemReq, phase := CPhase.committed 2 }] }

/-! ## Helper lemmas

Structural facts about the embedded operations, shared by the claim
theorems below. -/

theorem updateProduct_map_pid (ps : List Product) (pid : Nat) (f : Product → Product)
    (hf : ∀ p, (f p).pid = p.pid) :
    (updateProduct ps pid f).map (fun p => p.pid) = ps.map (fun p => p.pid) := by
  simp only [updateProduct, List.map_map]
  apply List.map_congr_left
  intro p _
  by_cases h : p.pid = pid <;> simp [h, hf]

theorem txSum_append (l l' : List StockTransaction) (pid : Nat) :
    txSum (l ++ l') pid = txSum l pid + txSum l' pid := by
  simp [txSum, List.sum_append]

theorem signedFor_eq_zero (pid : Nat) (t : StockTransaction) (h : t.product ≠ pid) :
    signedFor pid t = 0 := by
  simp [signedFor, h]

theorem quantityInv_recordMovement (db : DB) (pid : Nat) (d : Int) (t : StockTransaction)
    (hInv : QuantityInv db) (ht : t.product = pid) (hd : signedFor pid t = d) :
    QuantityInv (recordMovement db pid d t) := by
  intro p hp
  simp only [recordMovement, updateProduct, List.mem_map] at hp
  obtain ⟨q, hq, rfl⟩ := hp
  simp only [recordMovement, txSum_append]
  by_cases hqp : q.pid = pid
  · rw [if_pos (by simp [hqp])]
    have h1 : txSum [t] q.pid = d := by simp [txSum, hqp, hd]
    show q.quantity + d = txSum db.transactions q.pid + txSum [t] q.pid
    rw [h1, hInv q hq]
  · rw [if_neg (by simp [hqp])]
    have hz : t.product ≠ q.pid := by rw [ht]; exact fun h => hqp h.symm
    have h1 : txSum [t] q.pid = 0 := by simp [txSum, signedFor_eq_zero q.pid t hz]
    rw [h1, hInv q hq]
    ring

theorem wf_recordMovement (db : DB) (pid : Nat) (d : Int) (t : StockTransaction)
    (hWF : WF db) (ht : t.product ∈ db.products.map (fun p => p.pid)) :
    WF (recordMovement db pid d t) := by
  obtain ⟨h1, h2, h3⟩ := hWF
  have hpids : ((recordMovement db pid d t).products.map (fun p => p.pid)) =
      db.products.map (fun p => p.pid) := by
    simp only [recordMovement]
    exact updateProduct_map_pid db.products pid _ (fun p => rfl)
  refine ⟨?_, ?_, ?_⟩
  · rw [hpids]; exact h1
  · intro t' ht'
    rw [hpids]
    simp only [recordMovement, List.mem_append, List.mem_singleton] at ht'
    rcases ht' with h | h
    · exact h2 t' h
    · rw [h]; exact ht
  · intro o ho it hit
    rw [hpids]
    simp only [recordMovement] at ho
    exact h3 o ho it hit

theorem commitLines_sales (sid : Nat) (lines : List (Nat × Int)) (db : DB) :
    (commitLines sid lines db).sales = db.sales := by
  induction lines generalizing db with
  | nil => rfl
  | cons l rest ih => exact ih _

theorem commitLines_payments (sid : Nat) (lines : List (Nat × Int)) (db : DB) :
    (commitLines sid lines db).payments = db.payments := by
  induction lines generalizing db with
  | nil => rfl
  | cons l rest ih => exact ih _

theorem commitLines_customers (sid : Nat) (lines : List (Nat × Int)) (db : DB) :
    (commitLines sid lines db).customers = db.customers := by
  induction lines generalizing db with
  | nil => rfl
  | cons l rest ih => exact ih _

theorem commitLines_orders (sid : Nat) (lines : List (Nat × Int)) (db : DB) :
    (commitLines sid lines db).orders = db.orders := by
  induction lines generalizing db with
  | nil => rfl
  | cons l rest ih => exact ih _

theorem commitLines_nextSaleId (sid : Nat) (lines : List (Nat × Int)) (db : DB) :
    (commitLines sid lines db).nextSaleId = db.nextSaleId := by
  induction lines generalizing db with
  | nil => rfl
  | cons l rest ih => exact ih _

theorem findProduct_price_recordMovement (db : DB) (pid : Nat) (d : Int)
    (t : StockTransaction) (pid' : Nat) :
    (findProduct (recordMovement db pid d t) pid').map (fun p => p.price) =
      (findProduct db pid').map (fun p => p.price) := by
  simp only [findProduct, recordMovement, updateProduct]
  rw [List.find?_map]
  rw [Option.map_map]
  have hpred : ((fun p => p.pid == pid') ∘
      (fun p => if p.pid == pid then { p with quantity := p.quantity + d } else p)) =
      (fun p : Product => p.pid == pid') := by
    funext p
    by_cases h : p.pid = pid <;> simp [h]
  rw [hpred]
  have hprice : ((fun p : Product => p.price) ∘
      (fun p => if p.pid == pid then { p with quantity := p.quantity + d } else p)) =
      (fun p : Product => p.price) := by
    funext p
    by_cases h : p.pid = pid <;> simp [h]
  rw [hprice]

theorem recordMovement_transactions (db : DB) (pid : Nat) (d : Int) (t : StockTransaction) :
    (recordMovement db pid d t).transactions = db.transactions ++ [t] := rfl

theorem recordMovement_products (db : DB) (pid : Nat) (d : Int) (t : StockTransaction) :
    (recordMovement db pid d t).products =
      updateProduct db.products pid (fun p => { p with quantity := p.quantity + d }) := rfl

theorem commitLines_transactions (sid : Nat) (lines : List (Nat × Int)) (db : DB) :
    (commitLines sid lines db).transactions =
      db.transactions ++
        lines.map (fun l => mkSaleTx sid l.1 l.2 ((findProduct db l.1).map (fun p => p.price))) := by
  induction lines generalizing db with
  | nil => simp [commitLines]
  | cons l rest ih =>
    obtain ⟨pid, qty⟩ := l
    simp only [commitLines, List.map_cons]
    rw [ih, recordMovement_transactions, List.append_assoc, List.singleton_append]
    congr 2
    apply List.map_congr_left
    intro l' _
    rw [findProduct_price_recordMovement]

theorem linesSum_cons (a : Nat × Int) (rest : List (Nat × Int)) (x : Nat) :
    linesSum (a :: rest) x = (if a.1 == x then a.2 else 0) + linesSum rest x := by
  by_cases h : a.1 = x <;> simp [linesSum, List.filter_cons, h]

theorem commitLines_products (sid : Nat) (lines : List (Nat × Int)) (db : DB) :
    (commitLines sid lines db).products =
      db.products.map (fun p => { p with quantity := p.quantity - linesSum lines p.pid }) := by
  induction lines generalizing db with
  | nil => simp [commitLines, linesSum]
  | cons a rest ih =>
    obtain ⟨pid, qty⟩ := a
    simp only [commitLines]
    rw [ih, recordMovement_products]
    simp only [updateProduct, List.map_map]
    apply List.map_congr_left
    intro p _
    simp only [Function.comp_apply]
    rw [linesSum_cons]
    by_cases h : p.pid = pid
    · rw [if_pos (show (p.pid == pid) = true by simp [h])]
      rw [if_pos (show (pid == p.pid) = true by simp [h])]
      simp only [Product.mk.injEq, true_and]
      omega
    · rw [if_neg (show ¬ (p.pid == pid) = true by simp [h])]
      rw [if_neg (show ¬ (pid == p.pid) = true by simp [Ne.symm h])]
      simp only [Product.mk.injEq, true_and]
      omega

theorem itemsSum_cons (a : POItem) (rest : List POItem) (x : Nat) :
    itemsSum (a :: rest) x = (if a.product == x then a.quantity else 0) + itemsSum rest x := by
  by_cases h : a.product = x <;> simp [itemsSum, List.filter_cons, h]

theorem receiveItems_products (items : List POItem) (db : DB) :
    (receiveItems items db).products =
      db.products.map (fun p => { p with quantity := p.quantity + itemsSum items p.pid }) := by
  induction items generalizing db with
  | nil => simp [receiveItems, itemsSum]
  | cons a rest ih =>
    simp only [receiveItems]
    rw [ih, recordMovement_products]
    simp only [updateProduct, List.map_map]
    apply List.map_congr_left
    intro p _
    simp only [Function.comp_apply]
    rw [itemsSum_cons]
    by_cases h : p.pid = a.product
    · rw [if_pos (show (p.pid == a.product) = true by simp [h])]
      rw [if_pos (show (a.product == p.pid) = true by simp [h])]
      simp only [Product.mk.injEq, true_and]
      omega
    · rw [if_neg (show ¬ (p.pid == a.product) = true by simp [h])]
      rw [if_neg (show ¬ (a.product == p.pid) = true by simp [Ne.symm h])]
      simp only [Product.mk.injEq, true_and]
      omega

theorem receiveItems_transactions (items : List POItem) (db : DB) :
    (receiveItems items db).transactions =
      db.transactions ++ items.map (fun it => mkPoTx it.product it.quantity) := by
  induction items generalizing db with
  | nil => simp [receiveItems]
  | cons a rest ih =>
    simp only [receiveItems, List.map_cons]
    rw [ih, recordMovement_transactions, List.append_assoc, List.singleton_append]

theorem receiveItems_orders (items : List POItem) (db : DB) :
    (receiveItems items db).orders = db.orders := by
  induction items generalizing db with
  | nil => rfl
  | cons a rest ih => exact ih _

theorem receiveItems_sales (items : List POItem) (db : DB) :
    (receiveItems items db).sales = db.sales := by
  induction items generalizing db with
  | nil => rfl
  | cons a rest ih => exact ih _

theorem receiveItems_payments (items : List POItem) (db : DB) :
    (receiveItems items db).payments = db.payments := by
  induction items generalizing db with
  | nil => rfl
  | cons a rest ih => exact ih _

theorem txSum_eq_zero (txs : List StockTransaction) (pid : Nat)
    (h : ∀ t ∈ txs, t.product ≠ pid) : txSum txs pid = 0 := by
  induction txs with
  | nil => rfl
  | cons t rest ih =>
    simp only [txSum, List.map_cons, List.sum_cons]
    rw [signedFor_eq_zero pid t (h t (by simp))]
    have := ih (fun t' ht' => h t' (by simp [ht']))
    simp only [txSum] at this
    simp [this]

theorem validateItems_found (db : DB) (lines : List (Nat × Int)) (total : Int)
    (h : validateItems db lines = Except.ok total) :
    ∀ l ∈ lines, ∃ p, findProduct db l.1 = some p ∧ ¬ p.quantity < l.2 := by
  induction lines generalizing total with
  | nil => intro l hl; simp at hl
  | cons a rest ih =>
    intro l hl
    obtain ⟨pid, qty⟩ := a
    rcases hfp : findProduct db pid with _ | p
    · simp only [validateItems, hfp] at h
      exact absurd h (by simp)
    · simp only [validateItems, hfp] at h
      by_cases hlt : p.quantity < qty
      · rw [if_pos hlt] at h
        simp at h
      · rw [if_neg hlt] at h
        rcases hv : validateItems db rest with e | t
        · simp only [hv] at h
          exact absurd h (by simp)
        · simp only [hv] at h
          rcases List.mem_cons.1 hl with hl1 | hl1
          · subst hl1
            exact ⟨p, hfp, hlt⟩
          · exact ih t hv l hl1

theorem findProduct_mem_pid (db : DB) (pid : Nat) (p : Product)
    (h : findProduct db pid = some p) : pid ∈ db.products.map (fun q => q.pid) := by
  have h' : db.products.find? (fun q => q.pid == pid) = some p := h
  have hmem : p ∈ db.products := List.mem_of_find?_eq_some h'
  have hbeq := List.find?_some h'
  have hpe : p.pid = pid := by simpa using hbeq
  exact hpe ▸ List.mem_map.2 ⟨p, hmem, rfl⟩

theorem findOrder_mem (db : DB) (pk : Nat) (po : PurchaseOrder)
    (h : findOrder db pk = some po) : po ∈ db.orders :=
  List.mem_of_find?_eq_some h

theorem commitLines_inv (sid : Nat) (lines : List (Nat × Int)) (db : DB)
    (hWF : WF db) (hInv : QuantityInv db)
    (hlines : ∀ l ∈ lines, l.1 ∈ db.products.map (fun p => p.pid)) :
    QuantityInv (commitLines sid lines db) ∧ WF (commitLines sid lines db) := by
  induction lines generalizing db with
  | nil => exact ⟨hInv, hWF⟩
  | cons a rest ih =>
    obtain ⟨pid, qty⟩ := a
    simp only [commitLines]
    have htx : (mkSaleTx sid pid qty ((findProduct db pid).map (fun p => p.price))).product = pid := rfl
    have hsf : signedFor pid (mkSaleTx sid pid qty ((findProduct db pid).map (fun p => p.price))) = -qty := by
      simp [signedFor, mkSaleTx]
    have hInv' := quantityInv_recordMovement db pid (-qty) _ hInv htx hsf
    have hWF' := wf_recordMovement db pid (-qty) _ hWF (htx ▸ hlines (pid, qty) (by simp))
    apply ih _ hWF' hInv'
    intro l hl
    have hpids : ((recordMovement db pid (-qty)
        (mkSaleTx sid pid qty ((findProduct db pid).map (fun p => p.price)))).products.map
          (fun p => p.pid)) = db.products.map (fun p => p.pid) := by
      rw [recordMovement_products]
      exact updateProduct_map_pid db.products pid _ (fun p => rfl)
    rw [hpids]
    exact hlines l (by simp [hl])

theorem checkoutValidate_ok_validate (db : DB) (req : CheckoutRequest)
    (c : Option Customer) (amt tot : Int)
    (h : checkoutValidate db req = Except.ok (c, amt, tot)) :
    validateItems db (req.items.map stripLine) = Except.ok tot := by
  unfold checkoutValidate at h
  dsimp only at h
  split at h
  · exact absurd h (by simp)
  · split at h
    · exact absurd h (by simp)
    · rename_i t hv
      split at h
      · split at h
        · exact absurd h (by simp)
        · split at h
          · exact absurd h (by simp)
          · simp only [Except.ok.injEq, Prod.mk.injEq] at h
            rw [hv, h.2.2]
      · split at h
        · exact absurd h (by simp)
        · simp only [Except.ok.injEq, Prod.mk.injEq] at h
          rw [hv, h.2.2]
      · simp only [Except.ok.injEq, Prod.mk.injEq] at h
        rw [hv, h.2.2]

theorem checkout_inv (db : DB) (req : CheckoutRequest)
    (hWF : WF db) (hInv : QuantityInv db) :
    QuantityInv (pos_checkout db req).2 ∧ WF (pos_checkout db req).2 := by
  rcases hv : checkoutValidate db req with e | v
  · simp only [pos_checkout, hv]
    exact ⟨hInv, hWF⟩
  · obtain ⟨c, amt, tot⟩ := v
    simp only [pos_checkout, hv, finalizeSale]
    apply commitLines_inv
    · exact hWF
    · exact hInv
    · intro l hl
      have hval := checkoutValidate_ok_validate db req c amt tot hv
      obtain ⟨p, hp, _⟩ := validateItems_found db _ tot hval l hl
      exact findProduct_mem_pid db l.1 p hp

theorem refund_inv (db : DB) (pid sid : Nat) (q : Int)
    (hWF : WF db) (hInv : QuantityInv db) :
    QuantityInv (product_refund db pid sid q).2 ∧ WF (product_refund db pid sid q).2 := by
  unfold product_refund
  rcases hfp : findProduct db pid with _ | product
  · exact ⟨hInv, hWF⟩
  · simp only
    split
    · exact ⟨hInv, hWF⟩
    · split
      · exact ⟨hInv, hWF⟩
      · split
        · exact ⟨hInv, hWF⟩
        · split
          · exact ⟨hInv, hWF⟩
          · constructor
            · apply quantityInv_recordMovement db pid q _ hInv rfl
              simp [signedFor]
            · apply wf_recordMovement db pid q _ hWF
              exact findProduct_mem_pid db pid product hfp

theorem stockout_inv (db : DB) (pid : Nat) (reason : TxReason) (q : Int)
    (hWF : WF db) (hInv : QuantityInv db) :
    QuantityInv (product_stock_out db pid reason q).2 ∧
      WF (product_stock_out db pid reason q).2 := by
  unfold product_stock_out
  rcases hfp : findProduct db pid with _ | product
  · exact ⟨hInv, hWF⟩
  · simp only
    split
    · exact ⟨hInv, hWF⟩
    · split
      · exact ⟨hInv, hWF⟩
      · constructor
        · apply quantityInv_recordMovement db pid (-q) _ hInv rfl
          simp [signedFor]
        · apply wf_recordMovement db pid (-q) _ hWF
          exact findProduct_mem_pid db pid product hfp

theorem receiveItems_inv (items : List POItem) (db : DB)
    (hWF : WF db) (hInv : QuantityInv db)
    (hitems : ∀ it ∈ items, it.product ∈ db.products.map (fun p => p.pid)) :
    QuantityInv (receiveItems items db) ∧ WF (receiveItems items db) := by
  induction items generalizing db with
  | nil => exact ⟨hInv, hWF⟩
  | cons a rest ih =>
    simp only [receiveItems]
    have hsf : signedFor a.product (mkPoTx a.product a.quantity) = a.quantity := by
      simp [signedFor, mkPoTx]
    have hInv' := quantityInv_recordMovement db a.product a.quantity _ hInv rfl hsf
    have hWF' := wf_recordMovement db a.product a.quantity (mkPoTx a.product a.quantity) hWF
      (hitems a (by simp))
    apply ih _ hWF' hInv'
    intro it hit
    have hpids : ((recordMovement db a.product a.quantity (mkPoTx a.product a.quantity)).products.map
        (fun p => p.pid)) = db.products.map (fun p => p.pid) := by
      rw [recordMovement_products]
      exact updateProduct_map_pid db.products a.product _ (fun p => rfl)
    rw [hpids]
    exact hitems it (by simp [hit])

theorem complete_inv (db : DB) (pk : Nat) (hWF : WF db) (hInv : QuantityInv db) :
    QuantityInv (complete_order db pk) ∧ WF (complete_order db pk) := by
  unfold complete_order
  rcases hfo : findOrder db pk with _ | po
  · exact ⟨hInv, hWF⟩
  · simp only
    split
    · exact ⟨hInv, hWF⟩
    · obtain ⟨h1, h2, h3⟩ := hWF
      have hWF0 : WF { db with
          orders := updateOrder db.orders pk (fun o => { o with status := POStatus.RECEIVED }) } := by
        refine ⟨h1, h2, ?_⟩
        intro o' ho' it hit
        simp only [updateOrder, List.mem_map] at ho'
        obtain ⟨o, ho, rfl⟩ := ho'
        have hit' : it ∈ o.items := by
          by_cases hpk : (o.poPk == pk) = true
          · rw [if_pos hpk] at hit
            exact hit
          · rw [if_neg hpk] at hit
            exact hit
        exact h3 o ho it hit'
      apply receiveItems_inv _ _ hWF0 hInv
      intro it hit
      exact h3 po (findOrder_mem db pk po hfo) it hit

theorem receive_inv (db : DB) (pk : Nat) (post : Bool)
    (hWF : WF db) (hInv : QuantityInv db) :
    QuantityInv (receive_purchase_order db pk post).2 ∧
      WF (receive_purchase_order db pk post).2 := by
  unfold receive_purchase_order
  rcases hfo : findOrder db pk with _ | po
  · exact ⟨hInv, hWF⟩
  · simp only
    split
    · exact complete_inv db pk hWF hInv
    · exact ⟨hInv, hWF⟩

theorem create_inv (db : DB) (pid : Nat) (price q0 : Int)
    (hWF : WF db) (hInv : QuantityInv db) (hq : q0 = 0) :
    QuantityInv (create_product db pid price q0).2 ∧
      WF (create_product db pid price q0).2 := by
  subst hq
  unfold create_product
  split
  · exact ⟨hInv, hWF⟩
  · rename_i hguard
    push_neg at hguard
    obtain ⟨hany, _, _⟩ := hguard
    have hfresh : ∀ p ∈ db.products, p.pid ≠ pid := by
      intro p hp hcontra
      exact hany (List.any_eq_true.2 ⟨p, hp, by simp [hcontra]⟩)
    obtain ⟨h1, h2, h3⟩ := hWF
    have hpid_not : pid ∉ db.products.map (fun p => p.pid) := by
      intro hmem
      obtain ⟨p, hp, hpe⟩ := List.mem_map.1 hmem
      exact hfresh p hp hpe
    refine ⟨?_, ?_, ?_, ?_⟩
    · intro p hp
      rcases List.mem_append.1 hp with hmem | hmem
      · exact hInv p hmem
      · simp only [List.mem_singleton] at hmem
        subst hmem
        show (0 : Int) = txSum db.transactions pid
        symm
        apply txSum_eq_zero
        intro t ht hcontra
        have hmem := h2 t ht
        rw [hcontra] at hmem
        exact hpid_not hmem
    · rw [List.map_append]
      rw [List.nodup_append]
      refine ⟨h1, by simp, ?_⟩
      intro a ha hb
      simp only [List.map_cons, List.map_nil, List.mem_singleton] at hb
      subst hb
      exact hpid_not ha
    · intro t ht
      rw [List.map_append]
      exact List.mem_append_left _ (h2 t ht)
    · intro o ho it hit
      rw [List.map_append]
      exact List.mem_append_left _ (h3 o ho it hit)

theorem applyOp_inv (db : DB) (op : Op) (hWF : WF db) (hInv : QuantityInv db)
    (hop : createsZeroStock op) :
    QuantityInv (applyOp db op) ∧ WF (applyOp db op) := by
  cases op with
  | createProduct pid price q0 => exact create_inv db pid price q0 hWF hInv hop
  | checkout req => exact checkout_inv db req hWF hInv
  | refund pid sid q => exact refund_inv db pid sid q hWF hInv
  | receiveOrder pk post => exact receive_inv db pk post hWF hInv
  | stockOut pid r q => exact stockout_inv db pid r q hWF hInv

theorem applyOps_inv (db : DB) (ops : List Op) (hWF : WF db) (hInv : QuantityInv db)
    (hops : ∀ op ∈ ops, createsZeroStock op) :
    QuantityInv (applyOps db ops) ∧ WF (applyOps db ops) := by
  induction ops generalizing db with
  | nil => exact ⟨hInv, hWF⟩
  | cons op ops ih =>
    simp only [applyOps]
    obtain ⟨hInv', hWF'⟩ := applyOp_inv db op hWF hInv (hops op (by simp))
    exact ih _ hWF' hInv' (fun o ho => hops o (by simp [ho]))

theorem findOrder_update_self (os : List PurchaseOrder) (pk : Nat) (po : PurchaseOrder)
    (f : PurchaseOrder → PurchaseOrder)
    (hfo : os.find? (fun o => o.poPk == pk) = some po)
    (hf : ∀ o, (f o).poPk = o.poPk) :
    (updateOrder os pk f).find? (fun o => o.poPk == pk) = some (f po) := by
  unfold updateOrder
  rw [List.find?_map]
  have hpred : ((fun o : PurchaseOrder => o.poPk == pk) ∘
      (fun o => if o.poPk == pk then f o else o)) = (fun o : PurchaseOrder => o.poPk == pk) := by
    funext o
    by_cases h : o.poPk = pk <;> simp [h, hf]
  rw [hpred, hfo]
  have hpo := List.find?_some (p := fun o : PurchaseOrder => o.poPk == pk) hfo
  show some (if (po.poPk == pk) = true then f po else po) = some (f po)
  rw [if_pos hpo]

theorem receive_arrived (db : DB) (pk : Nat) (po : PurchaseOrder)
    (hfo : findOrder db pk = some po)
    (hst : po.status = POStatus.COMPLETED) :
    receive_purchase_order db pk true =
      (RecvResult.redirect [Msg.successMsg],
        receiveItems po.items
          { db with
            orders := updateOrder db.orders pk
              (fun o => { o with status := POStatus.RECEIVED }) }) := by
  unfold receive_purchase_order
  rw [hfo]
  simp only
  rw [if_pos (by exact ⟨by trivial, hst⟩)]
  unfold complete_order
  rw [hfo]
  simp only
  rw [if_neg (by rw [hst]; simp)]

theorem totalSold_append (l l' : List StockTransaction) (sid pid : Nat) :
    totalSold (l ++ l') sid pid = totalSold l sid pid + totalSold l' sid pid := by
  simp [totalSold, List.filter_append]

theorem totalReturned_append (l l' : List StockTransaction) (sid pid : Nat) :
    totalReturned (l ++ l') sid pid = totalReturned l sid pid + totalReturned l' sid pid := by
  simp [totalReturned, List.filter_append]

theorem saleHasProduct_false_sold_zero (txs : List StockTransaction) (sid pid : Nat)
    (h : saleHasProduct txs sid pid = false) : totalSold txs sid pid = 0 := by
  unfold totalSold
  have hfil : txs.filter (fun t =>
      t.posSale == some sid && t.product == pid &&
      t.txType == TxType.OUT && t.txReason == TxReason.SALE) = [] := by
    rw [List.filter_eq_nil_iff]
    intro t ht
    have h' := List.any_eq_false.1 h t ht
    simpa using h'
  rw [hfil]
  rfl

theorem refund_step (db : DB) (pid sid : Nat) (q : Int)
    (hret : totalReturned db.transactions sid pid ≤ totalSold db.transactions sid pid) :
    totalSold (product_refund db pid sid q).2.transactions sid pid =
      totalSold db.transactions sid pid ∧
    totalReturned (product_refund db pid sid q).2.transactions sid pid ≤
      totalSold db.transactions sid pid := by
  unfold product_refund
  rcases hfp : findProduct db pid with _ | product
  · exact ⟨rfl, hret⟩
  · simp only
    split
    · exact ⟨rfl, hret⟩
    · split
      · exact ⟨rfl, hret⟩
      · split
        · exact ⟨rfl, hret⟩
        · split
          · exact ⟨rfl, hret⟩
          · rename_i hover
            rw [recordMovement_transactions, totalSold_append, totalReturned_append]
            have hs1 : totalSold
                [{ product := pid, posSale := some sid, txType := TxType.IN,
                   txReason := TxReason.RETURN, quantity := q,
                   sellingPrice := some product.price }] sid pid = 0 := by
              simp [totalSold]
            have hr1 : totalReturned
                [{ product := pid, posSale := some sid, txType := TxType.IN,
                   txReason := TxReason.RETURN, quantity := q,
                   sellingPrice := some product.price }] sid pid = q := by
              simp [totalReturned]
            rw [hs1, hr1]
            constructor
            · ring
            · omega

theorem refundSeq_bound (pid sid : Nat) (qs : List Int) (db : DB)
    (hret : totalReturned db.transactions sid pid ≤ totalSold db.transactions sid pid) :
    totalSold (refundSeq pid sid qs db).transactions sid pid =
      totalSold db.transactions sid pid ∧
    totalReturned (refundSeq pid sid qs db).transactions sid pid ≤
      totalSold db.transactions sid pid := by
  induction qs generalizing db with
  | nil => exact ⟨rfl, hret⟩
  | cons q qs ih =>
    simp only [refundSeq]
    obtain ⟨h1, h2⟩ := refund_step db pid sid q hret
    obtain ⟨ih1, ih2⟩ := ih (product_refund db pid sid q).2 (by rw [h1]; exact h2)
    rw [h1] at ih1 ih2
    exact ⟨ih1, ih2⟩

theorem sum_filter_eq_sum_ite {α : Type} (l : List α) (p : α → Bool) (f : α → Int) :
    ((l.filter p).map f).sum = (l.map (fun x => if p x then f x else 0)).sum := by
  induction l with
  | nil => rfl
  | cons a l ih =>
    by_cases h : p a <;> simp [List.filter_cons, h, ih]

theorem get_balance_formula (db : DB) (cid : Nat) :
    get_balance db cid =
      (db.sales.map (fun x =>
        if x.customer = some cid ∧ x.paymentMethod = PayMethod.CREDIT then x.totalAmount
        else 0)).sum -
      (db.payments.map (fun x => if x.customer = cid then x.amount else 0)).sum := by
  unfold get_balance
  rw [sum_filter_eq_sum_ite, sum_filter_eq_sum_ite]
  congr 1
  · apply congrArg
    apply List.map_congr_left
    intro s _
    by_cases h1 : s.customer = some cid <;> by_cases h2 : s.paymentMethod = PayMethod.CREDIT <;>
      simp [h1, h2]
  · apply congrArg
    apply List.map_congr_left
    intro p _
    by_cases h : p.customer = cid <;> simp [h]

theorem get_balance_congr (d d' : DB) (h1 : d.sales = d'.sales) (h2 : d.payments = d'.payments)
    (cid : Nat) : get_balance d cid = get_balance d' cid := by
  unfold get_balance
  rw [h1, h2]

theorem get_balance_sales_append (db db' : DB) (s : POSSale)
    (hs : db'.sales = db.sales ++ [s]) (hp : db'.payments = db.payments) (cid : Nat) :
    get_balance db' cid = get_balance db cid +
      (if s.customer = some cid ∧ s.paymentMethod = PayMethod.CREDIT then s.totalAmount
       else 0) := by
  unfold get_balance
  rw [hs, hp, List.filter_append]
  by_cases h1 : s.customer = some cid
  · by_cases h2 : s.paymentMethod = PayMethod.CREDIT
    · simp [List.filter_cons, h1, h2]
      ring
    · simp [List.filter_cons, h1, h2]
  · simp [List.filter_cons, h1]

theorem checkoutValidate_credit_ok (db : DB) (req : CheckoutRequest) (cust : Customer)
    (c : Option Customer) (amt tot : Int)
    (hm : req.paymentMethod = PayMethod.CREDIT)
    (hcust : req.customerId.bind (findCustomer db) = some cust)
    (hv : checkoutValidate db req = Except.ok (c, amt, tot)) :
    c = some cust ∧ amt = 0 := by
  unfold checkoutValidate at hv
  dsimp only at hv
  split at hv
  · exact absurd hv (by simp)
  · split at hv
    · exact absurd hv (by simp)
    · split at hv
      · simp only [hcust] at hv
        split at hv
        · exact absurd hv (by simp)
        · simp only [Except.ok.injEq, Prod.mk.injEq] at hv
          exact ⟨hv.1.symm, hv.2.1.symm⟩
      · rename_i heq
        rw [hm] at heq
        exact absurd heq (by simp)
      · rename_i heq
        rw [hm] at heq
        exact absurd heq (by simp)

/-! ## Claim theorems -/

/-- C1 counterexample: from a well-formed store satisfying the quantity
invariant, creating a product through `ProductCreateForm` with a nonzero
initial quantity (here 5) yields a reachable state where the stored
quantity (5) differs from the signed movement sum (0): product creation
records no INITIAL ledger row. -/
theorem c1_counterexample :
    WF emptyDB ∧ QuantityInv emptyDB ∧
      ¬ QuantityInv (applyOps emptyDB [Op.createProduct 1 100 5]) := by decide

/-- C1 (amended): in every state reachable by the core operations from a
well-formed store satisfying the invariant, and in which every product
creation carries initial quantity 0, each product's stored quantity
equals the sum of its IN movement quantities minus the sum of its OUT
movement quantities.  (As stated the claim fails: creation with nonzero
initial quantity sets the quantity without recording any movement.) -/
theorem c1_quantity_invariant (db : DB) (ops : List Op)
    (hWF : WF db) (hInv : QuantityInv db)
    (hops : ∀ op ∈ ops, createsZeroStock op) :
    QuantityInv (applyOps db ops) :=
  (applyOps_inv db ops hWF hInv hops).1

/-- C1 witness: the amended invariant theorem applied to a concrete
ledger-backed store and a concrete checkout operation. -/
theorem c1_quantity_invariant_witness :
    WF ledgeredDB ∧ QuantityInv ledgeredDB ∧ createsZeroStock (Op.checkout oneItemReq) ∧
      QuantityInv (applyOps ledgeredDB [Op.checkout oneItemReq]) :=
  ⟨by decide, by decide, by decide,
    c1_quantity_invariant ledgeredDB [Op.checkout oneItemReq] (by decide) (by decide) (by decide)⟩

/-- C2: a checkout with N cart lines either creates exactly one POSSale
row and exactly N OUT/SALE transaction rows — one per cart line, each
linked to that sale — with every line's decrement applied to the product
column, or it fails and returns the store unchanged (the atomic block
rolls back). -/
theorem c2_checkout_atomicity (db : DB) (req : CheckoutRequest) :
    (∀ e, (pos_checkout db req).1 = Except.error e → (pos_checkout db req).2 = db) ∧
    (∀ s, (pos_checkout db req).1 = Except.ok s →
      (pos_checkout db req).2.sales = db.sales ++ [s] ∧
      ((pos_checkout db req).2.transactions = db.transactions ++
        (req.items.map stripLine).map (fun l =>
          mkSaleTx s.saleId l.1 l.2 ((findProduct db l.1).map (fun p => p.price))) ∧
       ((req.items.map stripLine).map (fun l =>
          mkSaleTx s.saleId l.1 l.2 ((findProduct db l.1).map (fun p => p.price)))).length =
            req.items.length) ∧
      (∀ t ∈ (req.items.map stripLine).map (fun l =>
          mkSaleTx s.saleId l.1 l.2 ((findProduct db l.1).map (fun p => p.price))),
        t.txType = TxType.OUT ∧ t.txReason = TxReason.SALE ∧ t.posSale = some s.saleId) ∧
      (pos_checkout db req).2.products = db.products.map
        (fun p => { p with quantity := p.quantity - linesSum (req.items.map stripLine) p.pid })) := by
  rcases hv : checkoutValidate db req with e | v
  · constructor
    · intro e' _
      simp [pos_checkout, hv]
    · intro s hs
      simp [pos_checkout, hv] at hs
  · obtain ⟨c, amt, tot⟩ := v
    constructor
    · intro e' he'
      simp [pos_checkout, hv] at he'
    · intro s hs
      simp only [pos_checkout, hv, finalizeSale] at hs ⊢
      simp only [Except.ok.injEq] at hs
      subst hs
      refine ⟨?_, ⟨?_, ?_⟩, ?_, ?_⟩
      · rw [commitLines_sales]
      · rw [commitLines_transactions]
        rfl
      · simp
      · intro t ht
        simp only [List.mem_map] at ht
        obtain ⟨l, _, rfl⟩ := ht
        exact ⟨rfl, rfl, rfl⟩
      · rw [commitLines_products]

/-- C2 witness: the atomicity characterization applied to a concrete
one-line cash checkout. -/
theorem c2_checkout_atomicity_witness :
    (pos_checkout oneItemDB oneItemReq).2.sales = oneItemDB.sales ++
      [{ saleId := 1
         customer := none
         paymentMethod := PayMethod.CASH
         totalAmount := 100
         amountPaid := 100
         changeGiven := 0 }] ∧
    ((oneItemReq.items.map stripLine).map (fun l =>
      mkSaleTx 1 l.1 l.2 ((findProduct oneItemDB l.1).map (fun p => p.price)))).length =
        oneItemReq.items.length ∧
    (pos_checkout oneItemDB oneItemReq).2.products = oneItemDB.products.map
      (fun p => { p with quantity := p.quantity - linesSum (oneItemReq.items.map stripLine) p.pid }) := by
  have h := (c2_checkout_atomicity oneItemDB oneItemReq).2
    { saleId := 1
      customer := none
      paymentMethod := PayMethod.CASH
      totalAmount := 100
      amountPaid := 100
      changeGiven := 0 } (by decide)
  exact ⟨h.1, h.2.1.2, h.2.2.2⟩

/-- C3: the code violates the no-oversell claim.  Checkout validates
line quantities on an unlocked read before `transaction.atomic()` and
never re-validates after taking the row lock, so there is an
interleaving of two one-unit checkouts against a product with quantity
Q = 1 in which both commit: the accepted OUT quantities sum to 2 > 1 and
the stored quantity ends at -1, contradicting the model's own
`PositiveIntegerField` declaration. -/
theorem c3_oversell_interleaving :
    ∃ cfg : CConfig,
      Relation.ReflTransGen CStep raceStart cfg ∧
      (∀ cl ∈ cfg.clients, cl.isCommitted = true) ∧
      (∀ p ∈ raceStart.db.products, p.quantity = 1) ∧
      outSaleSum cfg.db.transactions 1 = 2 ∧
      (∀ p ∈ cfg.db.products, p.quantity = -1) := by
  refine ⟨raceFinal, ?_, by decide, by decide, by decide, by decide⟩
  apply Relation.ReflTransGen.head
    (CStep.validateOk raceStart 0 { req := oneItemReq, phase := CPhase.pending }
      none 100 100 rfl rfl rfl)
  apply Relation.ReflTransGen.head
    (CStep.validateOk raceMid1 1 { req := oneItemReq, phase := CPhase.pending }
      none 100 100 rfl rfl rfl)
  apply Relation.ReflTransGen.head
    (CStep.commitStep raceMid2 0 { req := oneItemReq, phase := CPhase.validated none 100 100 }
      none 100 100 rfl rfl)
  apply Relation.ReflTransGen.head
    (CStep.commitStep raceMid3 1 { req := oneItemReq, phase := CPhase.validated none 100 100 }
      none 100 100 rfl rfl)
  exact Relation.ReflTransGen.refl

/-- C4 counterexample: a CREDIT checkout with positive total against a
customer whose credit limit is zero does not fail with
CreditLimitExceeded — it succeeds and creates a sale, because the code
guards the credit check with `credit_limit > 0` (zero limit means
unlimited credit, not no credit). -/
theorem c4_counterexample :
    (pos_checkout zeroLimitDB creditReq).1 ≠ Except.error CheckoutError.CreditLimitExceeded ∧
    (pos_checkout zeroLimitDB creditReq).1 = Except.ok
      { saleId := 1
        customer := some 1
        paymentMethod := PayMethod.CREDIT
        totalAmount := 100
        amountPaid := 0
        changeGiven := 0 } ∧
    (pos_checkout zeroLimitDB creditReq).2.sales.length = zeroLimitDB.sales.length + 1 ∧
    (findCustomer zeroLimitDB 1).map (fun c => c.creditLimit) = some 0 := by
  decide

/-- C4 (amended): a CREDIT checkout (with resolvable customer and valid
cart) fails with CreditLimitExceeded exactly when the customer's credit
limit is positive and balance + cart total exceeds it; a zero credit
limit disables the check entirely. -/
theorem c4_credit_check (db : DB) (req : CheckoutRequest) (cust : Customer) (total : Int)
    (hm : req.paymentMethod = PayMethod.CREDIT)
    (hne : req.items.isEmpty = false)
    (hval : validateItems db (req.items.map stripLine) = Except.ok total)
    (hcust : req.customerId.bind (findCustomer db) = some cust) :
    ((pos_checkout db req).1 = Except.error CheckoutError.CreditLimitExceeded ↔
      (cust.creditLimit > 0 ∧ get_balance db cust.cid + total > cust.creditLimit)) := by
  unfold pos_checkout checkoutValidate
  dsimp only
  rw [if_neg (by simp [hne])]
  simp only [hval, hm, hcust]
  by_cases hc : cust.creditLimit > 0 ∧ get_balance db cust.cid + total > cust.creditLimit
  · rw [if_pos hc]
    simp only [true_iff]
    exact hc
  · rw [if_neg hc]
    constructor
    · intro h
      exact absurd h (by simp)
    · intro h
      exact absurd h hc

/-- C4 witness: the amended credit-check theorem applied to a concrete
customer with limit 60 and a 100-unit cart. -/
theorem c4_credit_check_witness :
    ((pos_checkout limitDB creditReq).1 = Except.error CheckoutError.CreditLimitExceeded ↔
      ((60 : Int) > 0 ∧ get_balance limitDB 1 + 100 > 60)) :=
  c4_credit_check limitDB creditReq { cid := 1, creditLimit := 60 } 100 rfl rfl (by decide) (by decide)

/-- C5: receiving an arrived purchase order creates the
IN/PURCHASE_ORDER rows and quantity increments exactly once and reports
success; a second receive call on the now-RECEIVED order is a no-op that
redirects without error and creates no duplicate movements. -/
theorem c5_receive_idempotent (db : DB) (pk : Nat) (po : PurchaseOrder)
    (hfo : findOrder db pk = some po)
    (hst : po.status = POStatus.COMPLETED) :
    ((receive_purchase_order db pk true).2.transactions =
        db.transactions ++ po.items.map (fun it => mkPoTx it.product it.quantity)) ∧
    ((receive_purchase_order db pk true).2.products = db.products.map
        (fun p => { p with quantity := p.quantity + itemsSum po.items p.pid })) ∧
    ((receive_purchase_order db pk true).1 = RecvResult.redirect [Msg.successMsg]) ∧
    (receive_purchase_order (receive_purchase_order db pk true).2 pk true =
      (RecvResult.redirect [], (receive_purchase_order db pk true).2)) := by
  have hr := receive_arrived db pk po hfo hst
  refine ⟨?_, ?_, ?_, ?_⟩
  · rw [hr]
    exact receiveItems_transactions po.items _
  · rw [hr]
    exact receiveItems_products po.items _
  · rw [hr]
  · have hfo2 : findOrder (receive_purchase_order db pk true).2 pk =
        some { po with status := POStatus.RECEIVED } := by
      show (receive_purchase_order db pk true).2.orders.find? (fun o => o.poPk == pk) = _
      rw [hr]
      rw [receiveItems_orders]
      exact findOrder_update_self db.orders pk po _ hfo (fun o => rfl)
    set db2 := (receive_purchase_order db pk true).2 with hdb2
    show receive_purchase_order db2 pk true = (RecvResult.redirect [], db2)
    unfold receive_purchase_order
    rw [hfo2]
    simp only
    rw [if_neg (by simp)]

/-- C5 witness: the receive-idempotence theorem applied to a concrete
arrived order for three units. -/
theorem c5_receive_idempotent_witness :
    (receive_purchase_order arrivedPoDB 1 true).2.transactions =
      arrivedPoDB.transactions ++ [mkPoTx 1 3] ∧
    (receive_purchase_order arrivedPoDB 1 true).1 = RecvResult.redirect [Msg.successMsg] ∧
    receive_purchase_order (receive_purchase_order arrivedPoDB 1 true).2 1 true =
      (RecvResult.redirect [], (receive_purchase_order arrivedPoDB 1 true).2) := by
  have h := c5_receive_idempotent arrivedPoDB 1
    { poPk := 1, status := POStatus.COMPLETED,
      items := [{ product := 1, quantity := 3, price := 50 }] } (by decide) rfl
  exact ⟨h.1, h.2.2.1, h.2.2.2⟩

/-- C6 counterexample: a POST receive against a PENDING order does not
fail with InvalidTransition — the view silently redirects with no
message at all and creates no movements.  The source has no error branch
for wrong-state receives. -/
theorem c6_counterexample :
    receive_purchase_order pendingPoDB 1 true = (RecvResult.redirect [], pendingPoDB) ∧
    (receive_purchase_order pendingPoDB 1 true).2.transactions = pendingPoDB.transactions := by
  decide

/-- C6 (amended): ReceiveOrder creates movements only when the order is
in the arrived state (stored label COMPLETED); in any other state —
PENDING, CANCELED, or already RECEIVED — the request is a silent no-op
that redirects without reporting any error, rather than failing with
InvalidTransition. -/
theorem c6_receive_guard (db : DB) (pk : Nat) (po : PurchaseOrder) (isPost : Bool)
    (hfo : findOrder db pk = some po)
    (hst : po.status ≠ POStatus.COMPLETED) :
    receive_purchase_order db pk isPost = (RecvResult.redirect [], db) := by
  unfold receive_purchase_order
  rw [hfo]
  simp only
  rw [if_neg (fun h => hst h.2)]

/-- C6 witness: the amended guard theorem applied to a concrete pending
order. -/
theorem c6_receive_guard_witness :
    receive_purchase_order pendingPoDB 1 false = (RecvResult.redirect [], pendingPoDB) :=
  c6_receive_guard pendingPoDB 1
    { poPk := 1, status := POStatus.PENDING,
      items := [{ product := 1, quantity := 3, price := 50 }] } false (by decide) (by decide)

/-- C7: for a sale that sold S > 0 units of a product, a refund of
quantity q >= 1 fails with OverRefund exactly when already-returned + q
exceeds S, and over any sequence of refund requests the recorded
returned total never exceeds S (S itself is unchanged by refunds). -/
theorem c7_refund_bound (db : DB) (pid sid : Nat) (q : Int) (product : Product)
    (hfp : findProduct db pid = some product)
    (hq : 1 ≤ q)
    (hsold : 0 < totalSold db.transactions sid pid)
    (hret : totalReturned db.transactions sid pid ≤ totalSold db.transactions sid pid) :
    ((product_refund db pid sid q).1 = Except.error RefundError.OverRefund ↔
      totalSold db.transactions sid pid <
        totalReturned db.transactions sid pid + q) ∧
    (∀ qs : List Int,
      totalSold (refundSeq pid sid qs db).transactions sid pid =
        totalSold db.transactions sid pid ∧
      totalReturned (refundSeq pid sid qs db).transactions sid pid ≤
        totalSold db.transactions sid pid) := by
  constructor
  · have hhas : saleHasProduct db.transactions sid pid = true := by
      by_contra hcontra
      have h0 := saleHasProduct_false_sold_zero db.transactions sid pid (by
        revert hcontra
        cases saleHasProduct db.transactions sid pid <;> simp)
      omega
    unfold product_refund
    rw [hfp]
    simp only
    rw [if_neg (by omega)]
    rw [if_neg (by rw [hhas]; simp)]
    rw [if_neg (by omega)]
    by_cases hover : totalSold db.transactions sid pid <
        totalReturned db.transactions sid pid + q
    · rw [if_pos hover]
      simp only [true_iff]
      exact hover
    · rw [if_neg hover]
      simp only [Except.ok.injEq]
      constructor
      · intro h
        exact absurd h (by simp)
      · intro h
        exact absurd h hover
  · intro qs
    exact refundSeq_bound pid sid qs db hret

/-- C7 witness: the refund bound applied to a concrete sale of three
units, a two-unit refund, and the refund sequence [2, 6]. -/
theorem c7_refund_bound_witness :
    ((product_refund soldDB 1 1 2).1 = Except.error RefundError.OverRefund ↔
      totalSold soldDB.transactions 1 1 < totalReturned soldDB.transactions 1 1 + 2) ∧
    (totalSold (refundSeq 1 1 [2, 6] soldDB).transactions 1 1 =
      totalSold soldDB.transactions 1 1 ∧
    totalReturned (refundSeq 1 1 [2, 6] soldDB).transactions 1 1 ≤
      totalSold soldDB.transactions 1 1) := by
  have h := c7_refund_bound soldDB 1 1 2 { pid := 1, price := 100, quantity := 7 }
    (by decide) (by decide) (by decide) (by decide)
  exact ⟨h.1, h.2 [2, 6]⟩

/-- C8: get_balance equals the sum of total_amount over the customer's
CREDIT sales minus the sum of the customer's payment amounts, depends
only on those two record sets (no cached state exists to read), and
responds to a successful CREDIT checkout by increasing the customer's
balance by the sale total while leaving other customers' balances
unchanged. -/
theorem c8_balance_derivation (db : DB) (req : CheckoutRequest) (cust : Customer) (s : POSSale)
    (hm : req.paymentMethod = PayMethod.CREDIT)
    (hcust : req.customerId.bind (findCustomer db) = some cust)
    (hok : (pos_checkout db req).1 = Except.ok s) :
    (∀ d : DB, ∀ cid : Nat, get_balance d cid =
      (d.sales.map (fun x =>
        if x.customer = some cid ∧ x.paymentMethod = PayMethod.CREDIT then x.totalAmount
        else 0)).sum -
      (d.payments.map (fun x => if x.customer = cid then x.amount else 0)).sum) ∧
    (∀ d d' : DB, d.sales = d'.sales → d.payments = d'.payments →
      ∀ cid, get_balance d cid = get_balance d' cid) ∧
    (get_balance (pos_checkout db req).2 cust.cid = get_balance db cust.cid + s.totalAmount) ∧
    (∀ cid, cid ≠ cust.cid →
      get_balance (pos_checkout db req).2 cid = get_balance db cid) := by
  refine ⟨get_balance_formula, ?_, ?_⟩
  · intro d d' h1 h2 cid
    exact get_balance_congr d d' h1 h2 cid
  · rcases hv : checkoutValidate db req with e | v
    · simp only [pos_checkout, hv] at hok
      exact absurd hok (by simp)
    · obtain ⟨c, amt, tot⟩ := v
      obtain ⟨hcsome, hamt0⟩ := checkoutValidate_credit_ok db req cust c amt tot hm hcust hv
      subst hcsome
      simp only [pos_checkout, hv, finalizeSale] at hok ⊢
      simp only [Except.ok.injEq] at hok
      subst hok
      constructor
      · rw [get_balance_sales_append db _ _ (by rw [commitLines_sales]) (by rw [commitLines_payments]) cust.cid]
        rw [if_pos ⟨rfl, hm⟩]
      · intro cid hcid
        rw [get_balance_sales_append db _ _ (by rw [commitLines_sales]) (by rw [commitLines_payments]) cid]
        rw [if_neg (fun h => hcid (by
          have h1 : some cust.cid = some cid := h.1
          exact (Option.some.inj h1).symm))]
        ring

/-- C8 witness: the balance theorem applied to a concrete CREDIT
checkout of 100 against customer 1. -/
theorem c8_balance_derivation_witness :
    get_balance (pos_checkout ampleCreditDB creditReq).2 1 = get_balance ampleCreditDB 1 + 100 ∧
    get_balance (pos_checkout ampleCreditDB creditReq).2 2 = get_balance ampleCreditDB 2 := by
  have h := c8_balance_derivation ampleCreditDB creditReq { cid := 1, creditLimit := 100000 }
    { saleId := 1
      customer := some 1
      paymentMethod := PayMethod.CREDIT
      totalAmount := 100
      amountPaid := 0
      changeGiven := 0 } rfl (by decide) (by decide)
  exact ⟨h.2.2.1, h.2.2.2 2 (by decide)⟩

/-- C9: two checkout requests that differ only in client-supplied price
fields produce identical results, and on success every recorded OUT/SALE
row's unit-price snapshot equals the product's catalogue price at
checkout time. -/
theorem c9_price_snapshot (db : DB) (req1 req2 : CheckoutRequest)
    (hitems : req1.items.map stripLine = req2.items.map stripLine)
    (hcust : req1.customerId = req2.customerId)
    (hm : req1.paymentMethod = req2.paymentMethod)
    (hamt : req1.amountPaid = req2.amountPaid) :
    pos_checkout db req1 = pos_checkout db req2 ∧
    (∀ s, (pos_checkout db req1).1 = Except.ok s →
      (pos_checkout db req1).2.transactions = db.transactions ++
        (req1.items.map stripLine).map (fun l =>
          mkSaleTx s.saleId l.1 l.2 ((findProduct db l.1).map (fun p => p.price)))) := by
  have hlen : req1.items.isEmpty = req2.items.isEmpty := by
    have h := congrArg List.length hitems
    simp only [List.length_map] at h
    rcases h1 : req1.items with _ | _ <;> rcases h2 : req2.items with _ | _ <;> simp_all
  constructor
  · have hv : checkoutValidate db req1 = checkoutValidate db req2 := by
      unfold checkoutValidate
      rw [hitems, hcust, hm, hamt, hlen]
    unfold pos_checkout
    rw [hv, hitems, hm]
  · intro s hs
    rcases hv : checkoutValidate db req1 with e | v
    · simp only [pos_checkout, hv] at hs
      exact absurd hs (by simp)
    · obtain ⟨c, amt, tot⟩ := v
      simp only [pos_checkout, hv, finalizeSale] at hs ⊢
      simp only [Except.ok.injEq] at hs
      subst hs
      rw [commitLines_transactions]
      rfl

/-- C9 witness: the price-integrity theorem applied to a request and its
price-tampered twin. -/
theorem c9_price_snapshot_witness :
    pos_checkout oneItemDB oneItemReq = pos_checkout oneItemDB tamperedReq ∧
    (pos_checkout oneItemDB oneItemReq).2.transactions = oneItemDB.transactions ++
      (oneItemReq.items.map stripLine).map (fun l =>
        mkSaleTx 1 l.1 l.2 ((findProduct oneItemDB l.1).map (fun p => p.price))) := by
  have h := c9_price_snapshot oneItemDB oneItemReq tamperedReq (by decide) rfl rfl rfl
  refine ⟨h.1, ?_⟩
  have h2 := h.2
    { saleId := 1
      customer := none
      paymentMethod := PayMethod.CASH
      totalAmount := 100
      amountPaid := 100
      changeGiven := 0 } (by decide)
  exact h2

/-- C10: with a valid nonempty cart, checkout rejects for insufficient
payment exactly when the mode is CASH and the tendered amount is below
the total; in CARD mode the sale succeeds with change_given 0 regardless
of amount_paid, and in CREDIT mode the recorded amount_paid is forced to
0. -/
theorem c10_payment_validation (db : DB) (req : CheckoutRequest) (total : Int)
    (hne : req.items.isEmpty = false)
    (hval : validateItems db (req.items.map stripLine) = Except.ok total) :
    ((pos_checkout db req).1 = Except.error CheckoutError.InsufficientPayment ↔
      req.paymentMethod = PayMethod.CASH ∧ req.amountPaid < total) ∧
    (req.paymentMethod = PayMethod.CARD →
      ∃ s, (pos_checkout db req).1 = Except.ok s ∧ s.amountPaid = req.amountPaid ∧
        s.changeGiven = 0 ∧ s.totalAmount = total) ∧
    (req.paymentMethod = PayMethod.CREDIT →
      ∀ s, (pos_checkout db req).1 = Except.ok s → s.amountPaid = 0) := by
  rcases hm : req.paymentMethod with _ | _ | _
  · -- CASH
    by_cases hp : req.amountPaid < total
    · have hres : (pos_checkout db req).1 = Except.error CheckoutError.InsufficientPayment := by
        unfold pos_checkout checkoutValidate
        dsimp only
        rw [if_neg (by simp [hne])]
        simp only [hval, hm]
        rw [if_pos hp]
      refine ⟨?_, ?_, ?_⟩
      · rw [hres]
        simp [hm, hp]
      · intro hcard
        exact absurd hcard (by simp)
      · intro hcredit
        exact absurd hcredit (by simp)
    · have hres : (pos_checkout db req).1 = Except.ok
          (finalizeSale db (req.customerId.bind (findCustomer db)) PayMethod.CASH
            req.amountPaid total (req.items.map stripLine)).1 := by
        unfold pos_checkout checkoutValidate
        dsimp only
        rw [if_neg (by simp [hne])]
        simp only [hval, hm]
        rw [if_neg hp]
      refine ⟨?_, ?_, ?_⟩
      · rw [hres]
        constructor
        · intro h
          exact absurd h (by simp)
        · intro h
          exact absurd h.2 hp
      · intro hcard
        exact absurd hcard (by simp)
      · intro hcredit
        exact absurd hcredit (by simp)
  · -- CREDIT
    rcases hcust : req.customerId.bind (findCustomer db) with _ | cust
    · have hres : (pos_checkout db req).1 = Except.error CheckoutError.CustomerRequired := by
        unfold pos_checkout checkoutValidate
        dsimp only
        rw [if_neg (by simp [hne])]
        simp only [hval, hm, hcust]
      refine ⟨?_, ?_, ?_⟩
      · rw [hres]
        constructor
        · intro h
          exact absurd h (by simp)
        · intro h
          exact absurd h.1 (by simp)
      · intro hcard
        exact absurd hcard (by simp)
      · intro _ s hs
        rw [hres] at hs
        exact absurd hs (by simp)
    · by_cases hc : cust.creditLimit > 0 ∧ get_balance db cust.cid + total > cust.creditLimit
      · have hres : (pos_checkout db req).1 = Except.error CheckoutError.CreditLimitExceeded := by
          unfold pos_checkout checkoutValidate
          dsimp only
          rw [if_neg (by simp [hne])]
          simp only [hval, hm, hcust]
          rw [if_pos hc]
        refine ⟨?_, ?_, ?_⟩
        · rw [hres]
          constructor
          · intro h
            exact absurd h (by simp)
          · intro h
            exact absurd h.1 (by simp)
        · intro hcard
          exact absurd hcard (by simp)
        · intro _ s hs
          rw [hres] at hs
          exact absurd hs (by simp)
      · have hres : (pos_checkout db req).1 = Except.ok
            (finalizeSale db (some cust) PayMethod.CREDIT 0 total
              (req.items.map stripLine)).1 := by
          unfold pos_checkout checkoutValidate
          dsimp only
          rw [if_neg (by simp [hne])]
          simp only [hval, hm, hcust]
          rw [if_neg hc]
        refine ⟨?_, ?_, ?_⟩
        · rw [hres]
          constructor
          · intro h
            exact absurd h (by simp)
          · intro h
            exact absurd h.1 (by simp)
        · intro hcard
          exact absurd hcard (by simp)
        · intro _ s hs
          rw [hres] at hs
          simp only [Except.ok.injEq] at hs
          rw [← hs]
          rfl
  · -- CARD
    have hres : (pos_checkout db req).1 = Except.ok
        (finalizeSale db (req.customerId.bind (findCustomer db)) PayMethod.CARD
          req.amountPaid total (req.items.map stripLine)).1 := by
      unfold pos_checkout checkoutValidate
      dsimp only
      rw [if_neg (by simp [hne])]
      simp only [hval, hm]
    refine ⟨?_, ?_, ?_⟩
    · rw [hres]
      constructor
      · intro h
        exact absurd h (by simp)
      · intro h
        exact absurd h.1 (by simp)
    · intro _
      refine ⟨(finalizeSale db (req.customerId.bind (findCustomer db)) PayMethod.CARD
          req.amountPaid total (req.items.map stripLine)).1, hres, rfl, rfl, rfl⟩
    · intro hcredit
      exact absurd hcredit (by simp)

/-- C10 witness: the payment-validation theorem applied to a concrete
cash checkout tendering 50 against a 100 total. -/
theorem c10_payment_validation_witness :
    ((pos_checkout oneItemDB cashShortReq).1 = Except.error CheckoutError.InsufficientPayment ↔
      cashShortReq.paymentMethod = PayMethod.CASH ∧ cashShortReq.amountPaid < 100) :=
  (c10_payment_validation oneItemDB cashShortReq 100 rfl (by decide)).1

end Richland
